import Mathlib

/-!
Verification of the `my-tetris` rules engine against its specification.

This file gives a shallow embedding, in Lean 4, of the deterministic
simulation core of the game: the board (`src/game/Board.ts`), the piece
catalog and piece instances (`src/game/Tetromino.ts`), the SRS rotation
resolver (`src/game/SRS.ts`), the T-Spin detector (`src/game/TSpin.ts`),
the 7-bag randomizer (`src/game/Randomizer.ts`), the score engine
(`src/systems/ScoreManager.ts`), the replay player
(`src/systems/ReplaySystem.ts`) and the per-tick session controller
(`src/ui/GameManager.ts`).  JavaScript numbers are modelled as `Nat`/`Int`
(all quantities involved are integral, with 32-bit wrap-around made
explicit in the LCG), and as `ℚ` where exactness of a division matters
(the LCG output `seed / 0xffffffff` and replay timestamps).  Mutation is
modelled by explicit state passing: methods that mutate an object return
the updated value.
-/

namespace MyTetris

/-! ## Types (`src/types/index.ts`) -/

/-- The 7 tetromino kinds (`TetrominoType`). -/
inductive TetrominoType
  | I | O | T | S | Z | J | L
  deriving DecidableEq, Repr

/-- Rotation states `0 | 1 | 2 | 3` (`RotationState`). -/
abbrev RotationState := Fin 4

/-- Board position (`Position`); coordinates are JS numbers, here `Int`. -/
structure Position where
  x : Int
  y : Int
  deriving DecidableEq, Repr

/-- A board cell (`Cell`). -/
structure Cell where
  filled : Bool
  color : Option String
  deriving DecidableEq, Repr

/-- Board dimensions (`BoardConfig`). -/
structure BoardConfig where
  width : Nat
  height : Nat
  bufferHeight : Nat
  deriving DecidableEq, Repr

/-- Source `BOARD_CONFIG`: the default 10×20 board with a 4-row hidden buffer. -/
def BOARD_CONFIG : BoardConfig := { width := 10, height := 20, bufferHeight := 4 }

/-- T-Spin classification (`TSpinType`). -/
inductive TSpinType
  | none | mini | full
  deriving DecidableEq, Repr

/-- Result of a line-clear operation (`LineClearResult`). -/
structure LineClearResult where
  linesCleared : Nat
  tspinType : TSpinType
  description : String
  deriving DecidableEq, Repr

/-- Player input actions (`InputAction`). -/
inductive InputAction
  | moveLeft | moveRight | softDrop | hardDrop
  | rotateClockwise | rotateCounterClockwise | hold | pause
  deriving DecidableEq, Repr

/-- Source `DEFAULT_CONFIG.timing.lockDelay` (ms). -/
def lockDelay : Int := 500

/-! ## Piece catalog (`src/game/Tetromino.ts`) -/

/-- A 4×4 shape matrix (`ShapeMatrix`); entries are `0`/`1` as in the source. -/
abbrev ShapeMatrix := List (List Nat)

/-- Source `I_SHAPES`: the I piece's 4 rotation-state matrices. -/
def I_SHAPES : List ShapeMatrix :=
  [ [[0,0,0,0],[1,1,1,1],[0,0,0,0],[0,0,0,0]],
    [[0,0,1,0],[0,0,1,0],[0,0,1,0],[0,0,1,0]],
    [[0,0,0,0],[0,0,0,0],[1,1,1,1],[0,0,0,0]],
    [[0,1,0,0],[0,1,0,0],[0,1,0,0],[0,1,0,0]] ]

/-- Source `O_SHAPES`: the O piece's 4 (identical) rotation-state matrices. -/
def O_SHAPES : List ShapeMatrix :=
  [ [[0,1,1,0],[0,1,1,0],[0,0,0,0],[0,0,0,0]],
    [[0,1,1,0],[0,1,1,0],[0,0,0,0],[0,0,0,0]],
    [[0,1,1,0],[0,1,1,0],[0,0,0,0],[0,0,0,0]],
    [[0,1,1,0],[0,1,1,0],[0,0,0,0],[0,0,0,0]] ]

/-- Source `T_SHAPES`: the T piece's 4 rotation-state matrices. -/
def T_SHAPES : List ShapeMatrix :=
  [ [[0,1,0,0],[1,1,1,0],[0,0,0,0],[0,0,0,0]],
    [[0,1,0,0],[0,1,1,0],[0,1,0,0],[0,0,0,0]],
    [[0,0,0,0],[1,1,1,0],[0,1,0,0],[0,0,0,0]],
    [[0,1,0,0],[1,1,0,0],[0,1,0,0],[0,0,0,0]] ]

/-- Source `S_SHAPES`: the S piece's 4 rotation-state matrices. -/
def S_SHAPES : List ShapeMatrix :=
  [ [[0,1,1,0],[1,1,0,0],[0,0,0,0],[0,0,0,0]],
    [[0,1,0,0],[0,1,1,0],[0,0,1,0],[0,0,0,0]],
    [[0,0,0,0],[0,1,1,0],[1,1,0,0],[0,0,0,0]],
    [[1,0,0,0],[1,1,0,0],[0,1,0,0],[0,0,0,0]] ]

/-- Source `Z_SHAPES`: the Z piece's 4 rotation-state matrices. -/
def Z_SHAPES : List ShapeMatrix :=
  [ [[1,1,0,0],[0,1,1,0],[0,0,0,0],[0,0,0,0]],
    [[0,0,1,0],[0,1,1,0],[0,1,0,0],[0,0,0,0]],
    [[0,0,0,0],[1,1,0,0],[0,1,1,0],[0,0,0,0]],
    [[0,1,0,0],[1,1,0,0],[1,0,0,0],[0,0,0,0]] ]

/-- Source `J_SHAPES`: the J piece's 4 rotation-state matrices. -/
def J_SHAPES : List ShapeMatrix :=
  [ [[1,0,0,0],[1,1,1,0],[0,0,0,0],[0,0,0,0]],
    [[0,1,1,0],[0,1,0,0],[0,1,0,0],[0,0,0,0]],
    [[0,0,0,0],[1,1,1,0],[0,0,1,0],[0,0,0,0]],
    [[0,1,0,0],[0,1,0,0],[1,1,0,0],[0,0,0,0]] ]

/-- Source `L_SHAPES`: the L piece's 4 rotation-state matrices. -/
def L_SHAPES : List ShapeMatrix :=
  [ [[0,0,1,0],[1,1,1,0],[0,0,0,0],[0,0,0,0]],
    [[0,1,0,0],[0,1,0,0],[0,1,1,0],[0,0,0,0]],
    [[0,0,0,0],[1,1,1,0],[1,0,0,0],[0,0,0,0]],
    [[1,1,0,0],[0,1,0,0],[0,1,0,0],[0,0,0,0]] ]

/-- Source `TETROMINO_COLORS`: Guideline color per kind. -/
def TETROMINO_COLORS : TetrominoType → String
  | .I => "#00f0f0"
  | .O => "#f0f000"
  | .T => "#a000f0"
  | .S => "#00f000"
  | .Z => "#f00000"
  | .J => "#0000f0"
  | .L => "#f0a000"

/-- Source `TETROMINO_DEFS[type].shapes`: the 4 shape matrices of a kind. -/
def tetrominoShapes : TetrominoType → List ShapeMatrix
  | .I => I_SHAPES
  | .O => O_SHAPES
  | .T => T_SHAPES
  | .S => S_SHAPES
  | .Z => Z_SHAPES
  | .J => J_SHAPES
  | .L => L_SHAPES

/-- Source `ALL_TETROMINO_TYPES`: the 7 kinds, in source order. -/
def ALL_TETROMINO_TYPES : List TetrominoType :=
  [.I, .O, .T, .S, .Z, .J, .L]

/-- An active piece (`class Tetromino`): kind, rotation state and position.
The color is a function of the kind (`TETROMINO_COLORS[type]`), so it is
not stored separately. -/
structure Tetromino where
  type : TetrominoType
  rotation : RotationState
  position : Position
  deriving DecidableEq, Repr

namespace Tetromino

/-- Source `new Tetromino(type, position?)`: rotation 0, default position (3,0). -/
def mk' (type : TetrominoType) (position : Position := ⟨3, 0⟩) : Tetromino :=
  { type := type, rotation := 0, position := position }

/-- Source `Tetromino.color`. -/
def color (t : Tetromino) : String := TETROMINO_COLORS t.type

/-- Source `Tetromino.shape`: matrix of the current rotation state. -/
def shape (t : Tetromino) : ShapeMatrix :=
  (tetrominoShapes t.type).getD t.rotation.val []

/-- Source `Tetromino.getCells()`: board coordinates of the 4 occupied cells;
entries equal to `1` in the shape matrix, offset by the position. -/
def getCells (t : Tetromino) : List Position :=
  (t.shape.enum.flatMap fun (row, shapeRow) =>
    shapeRow.enum.filterMap fun (col, v) =>
      if v = 1 then
        some ⟨t.position.x + (col : Int), t.position.y + (row : Int)⟩
      else
        Option.none)

/-- Source `Tetromino.move(dx, dy)`. -/
def move (t : Tetromino) (dx dy : Int) : Tetromino :=
  { t with position := ⟨t.position.x + dx, t.position.y + dy⟩ }

/-- Source `Tetromino.setPosition(position)`. -/
def setPosition (t : Tetromino) (position : Position) : Tetromino :=
  { t with position := position }

/-- Source `Tetromino.setRotation(rotation)`. -/
def setRotation (t : Tetromino) (rotation : RotationState) : Tetromino :=
  { t with rotation := rotation }

/-- Source `Tetromino.clone()`: pure values need no copying; clone is the identity. -/
def clone (t : Tetromino) : Tetromino := t

end Tetromino

/-! ## Board (`src/game/Board.ts`)

The grid is `Cell[][]` indexed `grid[y][x]`, row 0 being the top of the
hidden buffer zone.  Out-of-range reads yield `null`/`undefined` in the
source; here they yield `Option.none` through `List.get?`. -/

/-- Source `class Board`: configuration plus mutable cell grid. -/
structure Board where
  config : BoardConfig
  grid : List (List Cell)
  deriving DecidableEq, Repr

/-- An empty cell `{ filled: false, color: null }`. -/
def emptyCell : Cell := { filled := false, color := Option.none }

namespace Board

/-- Source `Board.width`. -/
def width (b : Board) : Nat := b.config.width

/-- Source `Board.height`. -/
def height (b : Board) : Nat := b.config.height

/-- Source `Board.totalHeight`. -/
def totalHeight (b : Board) : Nat := b.config.height + b.config.bufferHeight

/-- Source `Board.bufferHeight`. -/
def bufferHeight (b : Board) : Nat := b.config.bufferHeight

/-- Source `createEmptyGrid()`: `totalHeight` rows of `width` empty cells. -/
def createEmptyGrid (config : BoardConfig) : List (List Cell) :=
  List.replicate (config.height + config.bufferHeight)
    (List.replicate config.width emptyCell)

/-- Source `new Board(config)`. -/
def new (config : BoardConfig := BOARD_CONFIG) : Board :=
  { config := config, grid := createEmptyGrid config }

/-- Source `Board.isInBounds(x, y)`. -/
def isInBounds (b : Board) (x y : Int) : Bool :=
  0 ≤ x && x < (b.config.width : Int) && 0 ≤ y && y < (b.totalHeight : Int)

/-- Source `Board.getCell(x, y)`: bounds-checked read; `none` models `null`. -/
def getCell (b : Board) (x y : Int) : Option Cell :=
  if b.isInBounds x y then
    match b.grid.get? y.toNat with
    | Option.none => Option.none
    | some row => row.get? x.toNat
  else
    Option.none

/-- Source `Board.setCell(x, y, filled, color)`: returns the updated board and the
source's boolean result (`false` when out of bounds, grid untouched). -/
def setCell (b : Board) (x y : Int) (filled : Bool) (color : Option String) :
    Board × Bool :=
  if b.isInBounds x y then
    match b.grid.get? y.toNat with
    | Option.none => (b, false)
    | some row =>
        ({ b with grid := b.grid.set y.toNat (row.set x.toNat ⟨filled, color⟩) },
          true)
  else
    (b, false)

/-- Source `Board.isCellEmpty(x, y)`: true iff in bounds and not filled. -/
def isCellEmpty (b : Board) (x y : Int) : Bool :=
  match b.getCell x y with
  | Option.none => false
  | some cell => !cell.filled

/-- Source `Board.canPlaceTetromino(tetromino)`. -/
def canPlaceTetromino (b : Board) (t : Tetromino) : Bool :=
  t.getCells.all fun cell => b.isInBounds cell.x cell.y && b.isCellEmpty cell.x cell.y

/-- Source `Board.lockTetromino(tetromino)`: fills the piece's cells with its color;
no-op returning `false` when the placement is invalid. -/
def lockTetromino (b : Board) (t : Tetromino) : Board × Bool :=
  if b.canPlaceTetromino t then
    (t.getCells.foldl (fun acc cell => (acc.setCell cell.x cell.y true (some t.color)).1) b,
      true)
  else
    (b, false)

/-- Source `Board.isRowFilled(y)`: `row.every(cell => cell.filled)`, with the
source's bounds and missing-row checks. -/
def isRowFilled (b : Board) (y : Int) : Bool :=
  if y < 0 || (b.totalHeight : Int) ≤ y then
    false
  else
    match b.grid.get? y.toNat with
    | Option.none => false
    | some row => row.all (·.filled)

/-- Source `Board.clearRow(y)`: `grid.splice(y, 1)` then `grid.unshift(emptyRow)` —
remove row `y` and put a fresh empty row on top. -/
def clearRow (b : Board) (y : Int) : Board :=
  if y < 0 || (b.totalHeight : Int) ≤ y then
    b
  else
    { b with grid :=
        List.replicate b.config.width emptyCell :: b.grid.eraseIdx y.toNat }

/-- The bottom-to-top scan of `clearFilledRows`.  The second argument is the
current row index plus one (`0` means the scan has passed the top row).  On
clearing a row the same index is examined again, exactly as the source's
`y++` inside the `for` loop.  The source loop has no fuel; the first
argument is an upper bound on its iteration count (the loop decrements the
index `totalHeight` times and clears each filled row once), present only to
make the recursion structural. -/
def clearLoop : Nat → Board → Nat → Nat → Board × Nat
  | 0, b, _, cleared => (b, cleared)
  | _ + 1, b, 0, cleared => (b, cleared)
  | fuel + 1, b, y + 1, cleared =>
      if b.isRowFilled y then
        clearLoop fuel (b.clearRow y) (y + 1) (cleared + 1)
      else
        clearLoop fuel b y cleared

/-- Source `Board.clearFilledRows()`: clears every filled row, returning the
updated board and the number of rows cleared. -/
def clearFilledRows (b : Board) : Board × Nat :=
  clearLoop (b.totalHeight + b.grid.length + 1) b b.totalHeight 0

/-- Source `Board.isOverflowing()`: any filled cell in buffer rows `0..bufferHeight-1`. -/
def isOverflowing (b : Board) : Bool :=
  (List.range b.config.bufferHeight).any fun y =>
    match b.grid.get? y with
    | Option.none => false
    | some row =>
        (List.range b.config.width).any fun x =>
          match row.get? x with
          | Option.none => false
          | some cell => cell.filled

/-- The descent loop of `getTetrominoDropPosition`: as long as the test
piece can be placed, remember its `y` and move it down one row.  The fuel
bounds the loop (a placeable piece has all cells inside the board, so at
most `totalHeight + 4` descents can succeed). -/
def dropLoop : Nat → Board → Tetromino → Int → Int
  | 0, _, _, lastValidY => lastValidY
  | fuel + 1, b, testPiece, lastValidY =>
      if b.canPlaceTetromino testPiece then
        dropLoop fuel b (testPiece.move 0 1) testPiece.position.y
      else
        lastValidY

/-- Source `Board.getTetrominoDropPosition(tetromino)`: lowest valid position with
the same `x` (hard-drop / ghost target). -/
def getTetrominoDropPosition (b : Board) (t : Tetromino) : Position :=
  ⟨t.position.x, dropLoop (b.totalHeight + 8) b t.clone t.position.y⟩

end Board

/-! ## Rotation resolver (`src/game/SRS.ts`) -/

/-- Source `RotationDirection`. -/
inductive RotationDirection
  | clockwise | counterClockwise
  deriving DecidableEq, Repr

/-- Source `RotationResult`: success flag, applied kick offset, and the index of
the successful wall-kick trial (`-1` on failure). -/
structure RotationResult where
  success : Bool
  kickOffset : Option Position
  kickIndex : Int
  deriving DecidableEq, Repr

/-- Source `JLSTZ_WALL_KICKS`: 5 trial offsets per transition `fromState→toState`
for the J, L, S, T, Z pieces.  The source keys the table by the string
`"{from}{to}"`; only the 8 SRS transitions are present, every other key
yields `undefined` (`Option.none` here). -/
def JLSTZ_WALL_KICKS : RotationState → RotationState → Option (List Position)
  | 0, 1 => some [⟨0,0⟩, ⟨-1,0⟩, ⟨-1,-1⟩, ⟨0,2⟩, ⟨-1,2⟩]
  | 1, 2 => some [⟨0,0⟩, ⟨1,0⟩, ⟨1,1⟩, ⟨0,-2⟩, ⟨1,-2⟩]
  | 2, 3 => some [⟨0,0⟩, ⟨1,0⟩, ⟨1,-1⟩, ⟨0,2⟩, ⟨1,2⟩]
  | 3, 0 => some [⟨0,0⟩, ⟨-1,0⟩, ⟨-1,1⟩, ⟨0,-2⟩, ⟨-1,-2⟩]
  | 1, 0 => some [⟨0,0⟩, ⟨1,0⟩, ⟨1,1⟩, ⟨0,-2⟩, ⟨1,-2⟩]
  | 2, 1 => some [⟨0,0⟩, ⟨-1,0⟩, ⟨-1,-1⟩, ⟨0,2⟩, ⟨-1,2⟩]
  | 3, 2 => some [⟨0,0⟩, ⟨-1,0⟩, ⟨-1,1⟩, ⟨0,-2⟩, ⟨-1,-2⟩]
  | 0, 3 => some [⟨0,0⟩, ⟨1,0⟩, ⟨1,-1⟩, ⟨0,2⟩, ⟨1,2⟩]
  | _, _ => Option.none

/-- Source `I_WALL_KICKS`: the I piece's trial offsets per transition. -/
def I_WALL_KICKS : RotationState → RotationState → Option (List Position)
  | 0, 1 => some [⟨0,0⟩, ⟨-2,0⟩, ⟨1,0⟩, ⟨-2,1⟩, ⟨1,-2⟩]
  | 1, 2 => some [⟨0,0⟩, ⟨-1,0⟩, ⟨2,0⟩, ⟨-1,-2⟩, ⟨2,1⟩]
  | 2, 3 => some [⟨0,0⟩, ⟨2,0⟩, ⟨-1,0⟩, ⟨2,-1⟩, ⟨-1,2⟩]
  | 3, 0 => some [⟨0,0⟩, ⟨1,0⟩, ⟨-2,0⟩, ⟨1,2⟩, ⟨-2,-1⟩]
  | 1, 0 => some [⟨0,0⟩, ⟨2,0⟩, ⟨-1,0⟩, ⟨2,-1⟩, ⟨-1,2⟩]
  | 2, 1 => some [⟨0,0⟩, ⟨1,0⟩, ⟨-2,0⟩, ⟨1,2⟩, ⟨-2,-1⟩]
  | 3, 2 => some [⟨0,0⟩, ⟨-2,0⟩, ⟨1,0⟩, ⟨-2,1⟩, ⟨1,-2⟩]
  | 0, 3 => some [⟨0,0⟩, ⟨-1,0⟩, ⟨2,0⟩, ⟨-1,-2⟩, ⟨2,1⟩]
  | _, _ => Option.none

/-- Source `getWallKickTable(type)`: the I piece has its own table. -/
def getWallKickTable (type : TetrominoType) :
    RotationState → RotationState → Option (List Position) :=
  if type = .I then I_WALL_KICKS else JLSTZ_WALL_KICKS

/-- Source `getTargetRotation(current, direction)`:
`(current+1) % 4` clockwise, `(current+3) % 4` counter-clockwise. -/
def getTargetRotation (current : RotationState) (direction : RotationDirection) :
    RotationState :=
  match direction with
  | .clockwise => current + 1
  | .counterClockwise => current + 3

/-- The trial loop of `tryRotation`: test each offset in order on a scratch
copy rotated to `toState`; on the first offset accepted by `canPlaceTetromino`
commit rotation and position to the piece and report that trial's index. -/
def tryKicks (t : Tetromino) (b : Board) (toState : RotationState) :
    List Position → Nat → RotationResult × Tetromino
  | [], _ => ({ success := false, kickOffset := Option.none, kickIndex := -1 }, t)
  | offset :: rest, i =>
      let testPiece := (t.clone.setRotation toState).setPosition
        ⟨t.position.x + offset.x, t.position.y + offset.y⟩
      if b.canPlaceTetromino testPiece then
        ({ success := true,
           kickOffset := if i = 0 then Option.none else some offset,
           kickIndex := (i : Int) },
         (t.setRotation toState).setPosition testPiece.position)
      else
        tryKicks t b toState rest (i + 1)

/-- Source `tryRotation(tetromino, board, direction)`: SRS rotation with wall
kicks.  Returns the result together with the (possibly updated) piece; the
source mutates the piece in place only on success. -/
def tryRotation (t : Tetromino) (b : Board) (direction : RotationDirection) :
    RotationResult × Tetromino :=
  if t.type = .O then
    ({ success := true, kickOffset := Option.none, kickIndex := 0 }, t)
  else
    let fromState := t.rotation
    let toState := getTargetRotation fromState direction
    match getWallKickTable t.type fromState toState with
    | Option.none => ({ success := false, kickOffset := Option.none, kickIndex := -1 }, t)
    | some offsets => tryKicks t b toState offsets 0

/-! ## T-Spin detector (`src/game/TSpin.ts`) -/

/-- Source `T_CENTER_OFFSET`: the T piece's pivot within its 4×4 matrix. -/
def T_CENTER_OFFSET : Position := ⟨1, 1⟩

/-- Source `TSPIN_MINI_KICK_INDEX`. -/
def TSPIN_MINI_KICK_INDEX : Int := 4

/-- Source `MIN_CORNERS_FOR_TSPIN`. -/
def MIN_CORNERS_FOR_TSPIN : Nat := 3

/-- Source `TSpinResult`. -/
structure TSpinResult where
  type : TSpinType
  wasRotation : Bool
  deriving DecidableEq, Repr

/-- Source `T_CORNERS`: per rotation state, the two front (leading) and two back
(trailing) corner offsets relative to the T pivot. -/
def T_CORNERS : RotationState → List Position × List Position
  | 0 => ([⟨-1,-1⟩, ⟨1,-1⟩], [⟨-1,1⟩, ⟨1,1⟩])
  | 1 => ([⟨1,-1⟩, ⟨1,1⟩], [⟨-1,-1⟩, ⟨-1,1⟩])
  | 2 => ([⟨-1,1⟩, ⟨1,1⟩], [⟨-1,-1⟩, ⟨1,-1⟩])
  | 3 => ([⟨-1,-1⟩, ⟨-1,1⟩], [⟨1,-1⟩, ⟨1,1⟩])

/-- Source `isCornerFilled(board, centerX, centerY, offset)`: occupied or out of
bounds. -/
def isCornerFilled (b : Board) (centerX centerY : Int) (offset : Position) : Bool :=
  let x := centerX + offset.x
  let y := centerY + offset.y
  if !b.isInBounds x y then
    true
  else
    !b.isCellEmpty x y

/-- Source `getTCenter(tetromino)`: position plus `T_CENTER_OFFSET`. -/
def getTCenter (t : Tetromino) : Position :=
  ⟨t.position.x + T_CENTER_OFFSET.x, t.position.y + T_CENTER_OFFSET.y⟩

/-- Number of filled front corners of a T piece (the detector's first
counting loop). -/
def tFrontFilledCount (t : Tetromino) (b : Board) : Nat :=
  ((T_CORNERS t.rotation).1.filter
    (isCornerFilled b (getTCenter t).x (getTCenter t).y)).length

/-- Total number of filled corners of a T piece (front plus back counting
loops). -/
def tFilledCount (t : Tetromino) (b : Board) : Nat :=
  tFrontFilledCount t b +
    ((T_CORNERS t.rotation).2.filter
      (isCornerFilled b (getTCenter t).x (getTCenter t).y)).length

/-- Source `detectTSpin(tetromino, board, wasRotation, kickIndex)`: the 3-corner
rule.  In the source `T_CORNERS[rotation]` is always defined (rotation is
`0|1|2|3`), so its `!corners` guard is dead code. -/
def detectTSpin (t : Tetromino) (b : Board) (wasRotation : Bool) (kickIndex : Int) :
    TSpinResult :=
  if t.type ≠ .T then
    { type := .none, wasRotation := wasRotation }
  else if !wasRotation then
    { type := .none, wasRotation := wasRotation }
  else
    let filledCount := tFilledCount t b
    let frontFilledCount := tFrontFilledCount t b
    if filledCount < MIN_CORNERS_FOR_TSPIN then
      { type := .none, wasRotation := wasRotation }
    else if TSPIN_MINI_KICK_INDEX ≤ kickIndex || frontFilledCount < 2 then
      { type := .mini, wasRotation := wasRotation }
    else
      { type := .full, wasRotation := wasRotation }

/-- Source `getTSpinDescription(tspinType, linesCleared)`. -/
def getTSpinDescription (tspinType : TSpinType) (linesCleared : Nat) : String :=
  match tspinType with
  | .none =>
      match linesCleared with
      | 0 => ""
      | 1 => "Single"
      | 2 => "Double"
      | 3 => "Triple"
      | 4 => "Tetris"
      | n => toString n ++ " Lines"
  | _ =>
      let pfx := if tspinType = .mini then "T-Spin Mini" else "T-Spin"
      match linesCleared with
      | 0 => pfx
      | 1 => pfx ++ " Single"
      | 2 => pfx ++ " Double"
      | 3 => pfx ++ " Triple"
      | n => pfx ++ " " ++ toString n ++ " Lines"

/-! ## Score engine (`src/systems/ScoreManager.ts`) -/

/-- The score-action lookup keys.  The source uses open string keys into
`BASE_SCORES`; `ActionKey.empty` models the empty string returned by
`getActionKey` when nothing scores. -/
inductive ActionKey
  | empty
  | single | double | triple | tetris
  | tspinMini | tspin
  | tspinMiniSingle | tspinSingle | tspinMiniDouble | tspinDouble | tspinTriple
  | tspinMiniTriple
  deriving DecidableEq, Repr

/-- Source `BASE_SCORES[key] ?? 0`. -/
def BASE_SCORES : ActionKey → Nat
  | .empty => 0
  | .single => 100
  | .double => 300
  | .triple => 500
  | .tetris => 800
  | .tspinMini => 100
  | .tspin => 400
  | .tspinMiniSingle => 200
  | .tspinSingle => 800
  | .tspinMiniDouble => 400
  | .tspinDouble => 1200
  | .tspinTriple => 1600
  | .tspinMiniTriple => 0   -- "tspin-mini-triple" is absent from the table; `?? 0`

/-- Source `DIFFICULT_ACTIONS.has(key)`. -/
def DIFFICULT_ACTIONS (key : ActionKey) : Bool :=
  match key with
  | .tetris | .tspinMiniSingle | .tspinSingle
  | .tspinMiniDouble | .tspinDouble | .tspinTriple => true
  | _ => false

/-- Source `FALL_SPEEDS`: milliseconds per gravity row, indexed by `level - 1`. -/
def FALL_SPEEDS : List Nat :=
  [1000, 793, 618, 473, 355, 262, 190, 135, 94, 64, 43, 28, 18, 11, 7]

/-- Source `LINES_PER_LEVEL`. -/
def LINES_PER_LEVEL : Nat := 10

/-- Source `COMBO_BONUS`. -/
def COMBO_BONUS : Nat := 50

/-- Source `SOFT_DROP_BONUS`. -/
def SOFT_DROP_BONUS : Nat := 1

/-- Source `HARD_DROP_BONUS`. -/
def HARD_DROP_BONUS : Nat := 2

/-- The `ScoreManager` fields: `_score`, `_level`, `_lines`, `_combo`
(`-1` = no active combo) and `_backToBack`. -/
structure ScoreState where
  score : Nat
  level : Nat
  lines : Nat
  combo : Int
  backToBack : Bool
  deriving DecidableEq, Repr

namespace ScoreManager

/-- Source `new ScoreManager(startLevel = 1)`: level is `Math.max(1, startLevel)`. -/
def new (startLevel : Nat := 1) : ScoreState :=
  { score := 0, level := max 1 startLevel, lines := 0, combo := -1,
    backToBack := false }

/-- Source `getActionKey(linesCleared, tspinType)`. -/
def getActionKey (linesCleared : Nat) (tspinType : TSpinType) : ActionKey :=
  match tspinType with
  | .none =>
      match linesCleared with
      | 1 => .single
      | 2 => .double
      | 3 => .triple
      | 4 => .tetris
      | _ => .empty
  | .mini =>
      match linesCleared with
      | 0 => .tspinMini
      | 1 => .tspinMiniSingle
      | 2 => .tspinMiniDouble
      | 3 => .tspinMiniTriple
      | _ => .tspinMini
  | .full =>
      match linesCleared with
      | 0 => .tspin
      | 1 => .tspinSingle
      | 2 => .tspinDouble
      | 3 => .tspinTriple
      | _ => .tspin

/-- Source `fallSpeed` getter: `FALL_SPEEDS[min(level - 1, 14)]`, clamped to the
last entry.  A level of 0 never occurs (the constructor clamps to ≥ 1); the
source would index `-1` and fall back to the last entry via `??`. -/
def fallSpeed (s : ScoreState) : Nat :=
  if s.level = 0 then 7
  else FALL_SPEEDS.getD (min (s.level - 1) (FALL_SPEEDS.length - 1)) 7

/-- Source `checkLevelUp()`: recompute `floor(lines / 10) + 1`, only ever raising
the level. -/
def checkLevelUp (s : ScoreState) : ScoreState :=
  let targetLevel := s.lines / LINES_PER_LEVEL + 1
  if s.level < targetLevel then { s with level := targetLevel } else s

/-- Source `processLineClear(result)`: returns the updated state and the points
awarded.  `Math.floor(baseScore * 1.5)` is `baseScore * 3 / 2` in `Nat`
division (exact for every table entry). -/
def processLineClear (s : ScoreState) (result : LineClearResult) :
    ScoreState × Nat :=
  let actionKey := getActionKey result.linesCleared result.tspinType
  if actionKey = .empty then
    ({ s with combo := -1 }, 0)
  else
    let baseScore := BASE_SCORES actionKey
    let isDifficult := DIFFICULT_ACTIONS actionKey
    let baseScore := if isDifficult && s.backToBack then baseScore * 3 / 2 else baseScore
    let points := baseScore * s.level
    let backToBack :=
      if 0 < result.linesCleared then isDifficult else s.backToBack
    let combo := if 0 < result.linesCleared then s.combo + 1 else s.combo
    let points :=
      if 0 < result.linesCleared && 0 < combo then
        points + COMBO_BONUS * combo.toNat * s.level
      else points
    let s' := { s with
      score := s.score + points,
      combo := combo,
      backToBack := backToBack,
      lines := if 0 < result.linesCleared then s.lines + result.linesCleared else s.lines }
    let s' := if 0 < result.linesCleared then checkLevelUp s' else s'
    (s', points)

/-- Source `resetCombo()`. -/
def resetCombo (s : ScoreState) : ScoreState := { s with combo := -1 }

/-- Source `addSoftDropBonus(cells)`. -/
def addSoftDropBonus (s : ScoreState) (cells : Nat) : ScoreState :=
  { s with score := s.score + cells * SOFT_DROP_BONUS }

/-- Source `addHardDropBonus(cells)`. -/
def addHardDropBonus (s : ScoreState) (cells : Nat) : ScoreState :=
  { s with score := s.score + cells * HARD_DROP_BONUS }

end ScoreManager

/-! ## Randomizer (`src/game/Randomizer.ts`)

`SeededRandom` is a glibc-parameter LCG on an unsigned 32-bit state.  Its
`next()` reads

    this.seed = (this.seed * 1103515245 + 12345) >>> 0;
    return (this.seed / 0x100000000) >>> 0
      ? this.seed / 0x100000000
      : this.seed / 0xffffffff;

The state update is evaluated in IEEE binary64: the product
`seed * 1103515245` can reach `2^62`, far above `2^53`, so it is rounded
(round-to-nearest, ties-to-even), the sum with `12345` is rounded again,
and only then does `>>> 0` reduce the integer-valued double modulo `2^32`.
`lcgNext` models this exactly through `roundB64`.

In the return expression, `seed < 2^32` makes `seed / 0x100000000 < 1`, and
`(…) >>> 0` truncates that to `0`, so the first branch is dead code:
`next()` always returns `seed / 0xffffffff`.  The returned number is
modelled exactly as a rational; `lcgNext_ne_max` below shows the rounded
state update never produces `0xffffffff`, so the value is always below `1`.

`shuffle` is Fisher–Yates over a JS array; an out-of-range write
`array[j] = v` with `j = array.length` appends, and an out-of-range read
yields `undefined`.  Array slots are therefore `Option TetrominoType`, with
`Option.none` playing `undefined`. -/

/-- Rounding of a nonnegative integer to IEEE binary64
(round-to-nearest, ties-to-even).  Integers below `2^53` are exactly
representable; a larger integer is rounded to the nearest multiple of the
unit in the last place of its binade, `2^(log2 n - 52)`, ties going to the
even multiple. -/
def roundB64 (n : Nat) : Nat :=
  if n < 2 ^ 53 then n
  else
    let u := 2 ^ (n.log2 - 52)
    let q := n / u
    let r := n % u
    if 2 * r < u then q * u
    else if u < 2 * r then (q + 1) * u
    else (if q % 2 = 0 then q else q + 1) * u

/-- One LCG step `(seed * 1103515245 + 12345) >>> 0` as JS evaluates it:
binary64 multiply (rounded), binary64 add (rounded), then `ToUint32` of the
integer-valued result. -/
def lcgNext (seed : Nat) : Nat :=
  roundB64 (roundB64 (seed * 1103515245) + 12345) % 4294967296

/-- The value returned by `SeededRandom.next()` after the state advanced to
`seed`: exactly `seed / 0xffffffff`. -/
def lcgValue (seed : Nat) : ℚ := (seed : ℚ) / 4294967295

/-- JS array read `array[i]` (`undefined` when out of range). -/
def jsRead (arr : List (Option TetrominoType)) (i : Nat) : Option TetrominoType :=
  (arr.get? i).getD Option.none

/-- JS array write `array[i] = v`: in-place for `i < length`, extending the
array (with `undefined` holes if needed) otherwise. -/
def jsWrite (arr : List (Option TetrominoType)) (i : Nat) (v : Option TetrominoType) :
    List (Option TetrominoType) :=
  if i < arr.length then arr.set i v
  else arr ++ List.replicate (i - arr.length) Option.none ++ [v]

/-- The Fisher–Yates loop of `shuffle`, iterating the index `i` from
`length - 1` down to `1`.  Each step draws `random()`, computes
`j = Math.floor(random() * (i + 1))`, and swaps `array[i]` with `array[j]`
through a temporary, exactly as the source.  The floor is written in `Nat`
division; `shuffleAux_index_eq_floor` below proves it equal to
`⌊random() * (i + 1)⌋` over the exact rational value of `random()`.  (The
IEEE double computation agrees on every in-range index, and both are out
of range — `j = i + 1` — exactly when the LCG state is `0xffffffff`.) -/
def shuffleAux : Nat → List (Option TetrominoType) → Nat →
    List (Option TetrominoType) × Nat
  | 0, arr, seed => (arr, seed)
  | i + 1, arr, seed =>
      let seed' := lcgNext seed
      let j := seed' * (i + 2) / 4294967295
      let temp := jsRead arr (i + 1)
      let arr' := jsWrite arr (i + 1) (jsRead arr j)
      let arr'' := jsWrite arr' j temp
      shuffleAux i arr'' seed'

/-- Source `shuffle(array, random)` with the seeded generator threaded through. -/
def shuffle (array : List (Option TetrominoType)) (seed : Nat) :
    List (Option TetrominoType) × Nat :=
  shuffleAux (array.length - 1) array seed

/-- The `Randomizer` fields (`bag`, `previewBag`) plus the internal state of
its captured `SeededRandom` and the exposed `initialSeed`. -/
structure RandomizerState where
  bag : List (Option TetrominoType)
  previewBag : List (Option TetrominoType)
  seed : Nat
  initialSeed : Nat
  deriving DecidableEq, Repr

namespace Randomizer

/-- A fresh 7-kind bag `[...ALL_TETROMINO_TYPES]` before shuffling. -/
def freshBag : List (Option TetrominoType) := ALL_TETROMINO_TYPES.map some

/-- Source `new Randomizer(seed)` for a supplied seed: `SeededRandom` clamps the
state to 32 bits (`seed >>> 0`), then `fillBag()` and `fillPreviewBag()`
run.  The unseeded constructor draws from `Math.random` — ambient
nondeterminism outside this embedding. -/
def create (seed : Nat) : RandomizerState :=
  let s0 := seed % 4294967296
  let (bag, s1) := shuffle freshBag s0
  let (previewBag, s2) := shuffle freshBag s1
  { bag := bag, previewBag := previewBag, seed := s2, initialSeed := seed }

/-- Source `Randomizer.next()`: swap in the preview bag when the current bag is
empty, then `shift()` the front element.  A `Option.none` first component
models the `undefined` slot that makes the source throw
`'Unexpected empty bag'`. -/
def next (r : RandomizerState) : Option TetrominoType × RandomizerState :=
  let (bag, previewBag, seed) :=
    if r.bag.length = 0 then
      let (newPreview, s') := shuffle freshBag r.seed
      (r.previewBag, newPreview, s')
    else
      (r.bag, r.previewBag, r.seed)
  match bag with
  | [] => (Option.none, { r with bag := [], previewBag := previewBag, seed := seed })
  | p :: rest => (p, { r with bag := rest, previewBag := previewBag, seed := seed })

end Randomizer

/-! ## Replay player (`src/systems/ReplaySystem.ts`)

Timestamps, durations and delta times are JS numbers in milliseconds,
modelled as `ℚ` (playback speeds include `0.5`). -/

/-- Source `ReplayEvent`. -/
structure ReplayEvent where
  timestamp : ℚ
  action : InputAction
  deriving DecidableEq, Repr

/-- Source `ReplayData` (the fields `updatePlayback` reads, plus the recorded
stats and identification fields). -/
structure ReplayData where
  id : String
  seed : Nat
  events : List ReplayEvent
  finalScore : Nat
  finalLevel : Nat
  finalLines : Nat
  date : String
  duration : ℚ
  deriving DecidableEq, Repr

/-- Source `ReplayPlaybackState`. -/
structure ReplayPlaybackState where
  replay : ReplayData
  currentTime : ℚ
  nextEventIndex : Nat
  paused : Bool
  speed : ℚ
  finished : Bool
  deriving DecidableEq, Repr

namespace ReplaySystem

/-- Source `DEFAULT_REPLAY_SPEED`. -/
def DEFAULT_REPLAY_SPEED : ℚ := 1

/-- Source `ReplaySystem.createPlaybackState(replay)`. -/
def createPlaybackState (replay : ReplayData) : ReplayPlaybackState :=
  { replay := replay, currentTime := 0, nextEventIndex := 0, paused := false,
    speed := DEFAULT_REPLAY_SPEED, finished := false }

/-- The drain loop of `updatePlayback`: starting at `nextEventIndex`, take
events in log order while their timestamp is ≤ the new current time,
stopping at the first later event or at the end of the log. -/
def drainEvents (events : List ReplayEvent) (time : ℚ) : List ReplayEvent :=
  events.takeWhile fun e => e.timestamp ≤ time

/-- Source `ReplaySystem.updatePlayback(state, deltaTime)`: returns the updated
state and the triggered actions.  A paused or finished state, or a negative
delta, is a strict no-op returning `[]`. -/
def updatePlayback (state : ReplayPlaybackState) (deltaTime : ℚ) :
    ReplayPlaybackState × List InputAction :=
  if state.paused || state.finished || deltaTime < 0 then
    (state, [])
  else
    let adjustedDelta := deltaTime * state.speed
    let currentTime := state.currentTime + adjustedDelta
    let triggered :=
      drainEvents (state.replay.events.drop state.nextEventIndex) currentTime
    let nextIdx := state.nextEventIndex + triggered.length
    let finished' :=
      if state.replay.events.length ≤ nextIdx then
        if state.replay.duration ≤ currentTime then true else state.finished
      else state.finished
    let state' := { state with
      currentTime := currentTime
      nextEventIndex := nextIdx
      finished := finished' }
    (state', triggered.map (·.action))

/-- Source `ReplaySystem.getProgress(state)`: percentage clamped to 100, with a
zero-duration record at 100 immediately. -/
def getProgress (state : ReplayPlaybackState) : ℚ :=
  if state.replay.duration = 0 then 100
  else min 100 (state.currentTime / state.replay.duration * 100)

end ReplaySystem

/-! ## Session controller (`src/ui/GameManager.ts`)

Only the play-state machine is embedded: menus, rendering, storage and DOM
listeners consume the state without influencing the simulation.
`GameManager.state` during play ranges over `playing`, `paused` and the
terminal states reached from `handleGameOver` (`gameover`/`name-input`),
collapsed here into `gameover` — both stop the simulation identically.

`initPlayState` constructs `new Randomizer()` whose unseeded branch draws
its seed from `Math.random`; seeding is the `Randomizer(seed)` constructor
branch (the replay determinism requirement is conditioned on a known seed),
so the embedded session takes the sequencer seed as a parameter.

A `crashed` flag models the exception `Randomizer.next()` throws when a
bag slot is `undefined`; a crashed session stops evolving. -/

/-- The phase of `GameManager.state` relevant during a play session. -/
inductive GamePhase
  | playing | paused | gameover
  deriving DecidableEq, Repr

/-- Source `HoldState`. -/
structure HoldState where
  heldPiece : Option TetrominoType
  holdUsed : Bool
  deriving DecidableEq, Repr

/-- The `PlayState` record of `GameManager`, plus the session phase and the
crash flag. -/
structure PlayState where
  board : Board
  randomizer : RandomizerState
  scoreManager : ScoreState
  currentTetromino : Option Tetromino
  dropTimer : Int
  lockTimer : Int
  isGrounded : Bool
  lastActionWasRotation : Bool
  lastKickIndex : Int
  hold : HoldState
  phase : GamePhase
  crashed : Bool
  deriving DecidableEq, Repr

namespace GameManager

/-- Source `initPlayState()` with the sequencer seeded (see the section comment). -/
def initPlayState (seed : Nat) : PlayState :=
  { board := Board.new
    randomizer := Randomizer.create seed
    scoreManager := ScoreManager.new
    currentTetromino := Option.none
    dropTimer := 0
    lockTimer := lockDelay
    isGrounded := false
    lastActionWasRotation := false
    lastKickIndex := 0
    hold := { heldPiece := Option.none, holdUsed := false }
    phase := .playing
    crashed := false }

/-- Source `tryMove(dx, dy)`: move, test `canPlaceTetromino`, revert on failure.
On success a grounded horizontal move resets the lock timer, and the
rotation flag is cleared. -/
def tryMove (s : PlayState) (dx dy : Int) : PlayState × Bool :=
  match s.currentTetromino with
  | Option.none => (s, false)
  | some t =>
      let moved := t.move dx dy
      if s.board.canPlaceTetromino moved then
        let s := if s.isGrounded && dy = 0 then { s with lockTimer := lockDelay } else s
        ({ s with currentTetromino := some moved, lastActionWasRotation := false }, true)
      else
        (s, false)

/-- Source `resetSpawnState(type)`: fresh piece at (3,0), timers and flags reset. -/
def resetSpawnState (s : PlayState) (type : TetrominoType) : PlayState :=
  { s with
    currentTetromino := some (Tetromino.mk' type ⟨3, 0⟩)
    dropTimer := 0
    lockTimer := lockDelay
    isGrounded := false
    lastActionWasRotation := false
    lastKickIndex := 0 }

/-- Source `spawnTetromino()`: draw from the randomizer, reset spawn state, clear
the hold-used flag.  An `undefined` draw throws in the source; here it
raises the crash flag. -/
def spawnTetromino (s : PlayState) : PlayState :=
  let (p, rand') := Randomizer.next s.randomizer
  match p with
  | Option.none => { s with randomizer := rand', crashed := true }
  | some type =>
      let s := resetSpawnState { s with randomizer := rand' } type
      { s with hold := { s.hold with holdUsed := false } }

/-- Source `spawnTetrominoOfType(type)`: spawn a specific kind (hold swap),
without touching the hold-used flag. -/
def spawnTetrominoOfType (s : PlayState) (type : TetrominoType) : PlayState :=
  resetSpawnState s type

/-- Source `checkGrounded()`: the piece cannot move down one row. -/
def checkGrounded (s : PlayState) : Bool :=
  match s.currentTetromino with
  | Option.none => false
  | some t => !s.board.canPlaceTetromino (t.clone.move 0 1)

/-- Source `handleRotation(direction)`: delegate to `tryRotation`; on success set
the rotation flag, record the kick index, and reset the lock timer when
grounded. -/
def handleRotation (s : PlayState) (direction : RotationDirection) : PlayState :=
  match s.currentTetromino with
  | Option.none => s
  | some t =>
      let (result, t') := tryRotation t s.board direction
      if result.success then
        let s := { s with
          currentTetromino := some t'
          lastActionWasRotation := true
          lastKickIndex := result.kickIndex }
        if s.isGrounded then { s with lockTimer := lockDelay } else s
      else
        s

/-- Source `performHold()`: no-op once used this spawn; first use stores the kind
and draws a fresh piece, later uses swap with the held kind. -/
def performHold (s : PlayState) : PlayState :=
  match s.currentTetromino with
  | Option.none => s
  | some t =>
      if s.hold.holdUsed then s
      else
        let currentType := t.type
        let s :=
          match s.hold.heldPiece with
          | Option.none =>
              spawnTetromino { s with hold := { s.hold with heldPiece := some currentType } }
          | some heldType =>
              spawnTetrominoOfType
                { s with hold := { s.hold with heldPiece := some currentType } } heldType
        { s with hold := { s.hold with holdUsed := true } }

/-- Source `performLineClear()`: T-Spin detection on the pre-lock board, then
lock, then clear rows. -/
def performLineClear (s : PlayState) : PlayState × LineClearResult :=
  match s.currentTetromino with
  | Option.none => (s, { linesCleared := 0, tspinType := .none, description := "" })
  | some t =>
      let tspinResult := detectTSpin t s.board s.lastActionWasRotation s.lastKickIndex
      let (board, _) := s.board.lockTetromino t
      let (board, linesCleared) := board.clearFilledRows
      let description := getTSpinDescription tspinResult.type linesCleared
      ({ s with board := board },
       { linesCleared := linesCleared, tspinType := tspinResult.type,
         description := description })

/-- Source `lockPiece()`: line clear, scoring, overflow test (game over) or next
spawn. -/
def lockPiece (s : PlayState) : PlayState :=
  match s.currentTetromino with
  | Option.none => s
  | some _ =>
      let (s, result) := performLineClear s
      let (score', _) := ScoreManager.processLineClear s.scoreManager result
      let s := { s with scoreManager := score' }
      if s.board.isOverflowing then
        { s with phase := .gameover }
      else
        spawnTetromino s

/-- Source `handlePlayInput(action)`: input dispatch during play.  `handleInput`
routes here only while `state === 'playing'`, so the `pause` case can only
pause (the resume path through this method is unreachable in the source). -/
def handlePlayInput (s : PlayState) (action : InputAction) : PlayState :=
  if s.phase ≠ .playing || s.crashed then s
  else match s.currentTetromino with
  | Option.none => s
  | some t =>
      match action with
      | .moveLeft => (tryMove s (-1) 0).1
      | .moveRight => (tryMove s 1 0).1
      | .softDrop =>
          let (s', success) := tryMove s 0 1
          if success then { s' with dropTimer := 0 } else s'
      | .hardDrop =>
          let dropPosition := s.board.getTetrominoDropPosition t
          let s := { s with
            currentTetromino := some (t.setPosition dropPosition)
            lastActionWasRotation := false }
          lockPiece s
      | .rotateClockwise => handleRotation s .clockwise
      | .rotateCounterClockwise => handleRotation s .counterClockwise
      | .hold => performHold s
      | .pause => { s with phase := .paused }

/-- Source `update(deltaTime)`, restricted to the play session: spawn when no
piece is active, recompute groundedness, run the lock-delay countdown, and
accumulate gravity.  Transition/menu/bookkeeping branches do not touch the
play state. -/
def update (s : PlayState) (deltaTime : Int) : PlayState :=
  if s.phase ≠ .playing || s.crashed then s
  else match s.currentTetromino with
  | Option.none => spawnTetromino s
  | some _ =>
      let s := { s with isGrounded := checkGrounded s }
      if s.isGrounded then
        let s := { s with lockTimer := s.lockTimer - deltaTime }
        if s.lockTimer ≤ 0 then lockPiece s
        else gravity s deltaTime
      else
        gravity { s with lockTimer := lockDelay } deltaTime
where
  /-- The drop-timer accumulation at the end of `update`. -/
  gravity (s : PlayState) (deltaTime : Int) : PlayState :=
    let s := { s with dropTimer := s.dropTimer + deltaTime }
    let dropInterval := ScoreManager.fallSpeed s.scoreManager
    if (dropInterval : Int) ≤ s.dropTimer then
      (tryMove { s with dropTimer := 0 } 0 1).1
    else
      s

/-- One driver tick: the input actions delivered for the tick are applied
before that tick's `update(deltaTime)` (the external driver ordering
guarantee). -/
def tick (s : PlayState) (actions : List InputAction) (deltaTime : Int) : PlayState :=
  update (actions.foldl handlePlayInput s) deltaTime

/-- A whole session: `initPlayState(seed)` driven by a log of per-tick
action batches and delta times. -/
def runSession (seed : Nat) (ticks : List (List InputAction × Int)) : PlayState :=
  ticks.foldl (fun s t => tick s t.1 t.2) (initPlayState seed)

end GameManager

/-! ## Operation traces over the score engine

The `ScoreManager` mutators reachable during a session (everything except
the session-restart `reset`). -/

/-- A call to one of the score engine's session mutators. -/
inductive ScoreOp
  | lineClear (linesCleared : Nat) (tspinType : TSpinType)
  | softDropBonus (cells : Nat)
  | hardDropBonus (cells : Nat)
  | comboReset
  deriving DecidableEq, Repr

/-- Apply one mutator call. -/
def applyScoreOp (s : ScoreState) : ScoreOp → ScoreState
  | .lineClear linesCleared tspinType =>
      (ScoreManager.processLineClear s
        { linesCleared := linesCleared, tspinType := tspinType, description := "" }).1
  | .softDropBonus cells => ScoreManager.addSoftDropBonus s cells
  | .hardDropBonus cells => ScoreManager.addHardDropBonus s cells
  | .comboReset => ScoreManager.resetCombo s

/-- Apply a sequence of mutator calls in order. -/
def applyScoreOps (s : ScoreState) (ops : List ScoreOp) : ScoreState :=
  ops.foldl applyScoreOp s

/-- Source `row.every(cell => cell.filled)`: a completely filled row. -/
def rowFull (row : List Cell) : Bool := row.all (·.filled)

/-- C2: `detectTSpin` returns tier `full` exactly when the piece is the T
kind, the last successful action was a rotation, at least 3 of the 4 corner
cells around the T pivot are filled (out-of-bounds corners counting as
filled, via `isCornerFilled`), both leading (front) corners are filled, and
the triggering rotation's kick trial index is below 4; it returns `mini`
when at least 3 corners are filled (with kind/rotation as above) but either
fewer than both front corners are filled or the kick index is ≥ 4; and it
returns `none` in every other case. -/
theorem detectTSpin_tier_characterization
    (t : Tetromino) (b : Board) (w : Bool) (k : Int) :
    ((detectTSpin t b w k).type = .full ↔
      t.type = .T ∧ w = true ∧ 3 ≤ tFilledCount t b ∧
        2 ≤ tFrontFilledCount t b ∧ k < 4) ∧
    ((detectTSpin t b w k).type = .mini ↔
      t.type = .T ∧ w = true ∧ 3 ≤ tFilledCount t b ∧
        (tFrontFilledCount t b < 2 ∨ 4 ≤ k)) ∧
    ((detectTSpin t b w k).type = .none ↔
      ¬(t.type = .T ∧ w = true ∧ 3 ≤ tFilledCount t b)) := by
  unfold detectTSpin MIN_CORNERS_FOR_TSPIN TSPIN_MINI_KICK_INDEX
  dsimp only
  split_ifs with h1 h2 h3 h4 <;> simp_all
  all_goals omega

/-- C3: with no active combo, a tier-`none` clear of 1/2/3/4 lines awards
100/300/500/800 × level, except that the difficult 4-line clear with
back-to-back already active first multiplies the base by 1.5 (floored:
`800 * 3 / 2 = 1200`) and only then by the level. -/
theorem processLineClear_base_values (s : ScoreState) (h : s.combo = -1) :
    (ScoreManager.processLineClear s ⟨1, .none, ""⟩).2 = 100 * s.level ∧
    (ScoreManager.processLineClear s ⟨2, .none, ""⟩).2 = 300 * s.level ∧
    (ScoreManager.processLineClear s ⟨3, .none, ""⟩).2 = 500 * s.level ∧
    (s.backToBack = false →
      (ScoreManager.processLineClear s ⟨4, .none, ""⟩).2 = 800 * s.level) ∧
    (s.backToBack = true →
      (ScoreManager.processLineClear s ⟨4, .none, ""⟩).2 = 800 * 3 / 2 * s.level) := by
  unfold ScoreManager.processLineClear ScoreManager.getActionKey
  dsimp only
  simp [BASE_SCORES, DIFFICULT_ACTIONS, h]
  refine ⟨?_, ?_⟩ <;> intro h1 h2 <;> rw [h1] at h2 <;> exact absurd h2 (by decide)

/-- Witness for C3 at a concrete state (level 1, fresh combo, back-to-back
active): the second consecutive quad awards 1200 points. -/
theorem processLineClear_base_values_witness :
    (ScoreManager.processLineClear ⟨0, 1, 0, -1, true⟩ ⟨4, .none, ""⟩).2 =
      800 * 3 / 2 * 1 :=
  (processLineClear_base_values ⟨0, 1, 0, -1, true⟩ rfl).2.2.2.2 rfl

/-- C7: a line-clear result with 0 lines but a `mini` or `full` bonus tier
leaves the combo counter and the back-to-back flag exactly unchanged, and
leaves the line total and level unchanged, while awarding the tier's base
points (100 for `mini`, 400 for `full`) times the level. -/
theorem processLineClear_zero_lines_bonus (s : ScoreState) (t : TSpinType)
    (h : t ≠ .none) :
    (ScoreManager.processLineClear s ⟨0, t, ""⟩).1.combo = s.combo ∧
    (ScoreManager.processLineClear s ⟨0, t, ""⟩).1.backToBack = s.backToBack ∧
    (ScoreManager.processLineClear s ⟨0, t, ""⟩).2 =
      (if t = .mini then 100 else 400) * s.level ∧
    (ScoreManager.processLineClear s ⟨0, t, ""⟩).1.score =
      s.score + (if t = .mini then 100 else 400) * s.level ∧
    (ScoreManager.processLineClear s ⟨0, t, ""⟩).1.lines = s.lines ∧
    (ScoreManager.processLineClear s ⟨0, t, ""⟩).1.level = s.level := by
  cases t with
  | none => exact absurd rfl h
  | mini =>
      unfold ScoreManager.processLineClear ScoreManager.getActionKey
      simp [BASE_SCORES, DIFFICULT_ACTIONS]
  | full =>
      unfold ScoreManager.processLineClear ScoreManager.getActionKey
      simp [BASE_SCORES, DIFFICULT_ACTIONS]

/-- Witness for C7: a 0-line `full` T-Spin at a concrete state with an
active combo of 2 and back-to-back set. -/
theorem processLineClear_zero_lines_bonus_witness :
    (ScoreManager.processLineClear ⟨1000, 3, 12, 2, true⟩ ⟨0, .full, ""⟩).1.combo = 2 ∧
    (ScoreManager.processLineClear ⟨1000, 3, 12, 2, true⟩ ⟨0, .full, ""⟩).1.backToBack = true ∧
    (ScoreManager.processLineClear ⟨1000, 3, 12, 2, true⟩ ⟨0, .full, ""⟩).2 =
      (if TSpinType.full = .mini then 100 else 400) * 3 ∧
    (ScoreManager.processLineClear ⟨1000, 3, 12, 2, true⟩ ⟨0, .full, ""⟩).1.score =
      1000 + (if TSpinType.full = .mini then 100 else 400) * 3 ∧
    (ScoreManager.processLineClear ⟨1000, 3, 12, 2, true⟩ ⟨0, .full, ""⟩).1.lines = 12 ∧
    (ScoreManager.processLineClear ⟨1000, 3, 12, 2, true⟩ ⟨0, .full, ""⟩).1.level = 3 :=
  processLineClear_zero_lines_bonus ⟨1000, 3, 12, 2, true⟩ .full (by decide)

/-- Helper for C8: each session mutator preserves
`level = lines / 10 + 1`. -/
theorem applyScoreOp_level_formula (s : ScoreState)
    (h : s.level = s.lines / 10 + 1) (op : ScoreOp) :
    (applyScoreOp s op).level =
      (applyScoreOp s op).lines / 10 + 1 := by
  cases op with
  | lineClear linesCleared tspinType =>
      unfold applyScoreOp ScoreManager.processLineClear ScoreManager.checkLevelUp LINES_PER_LEVEL
      dsimp only
      split_ifs <;> simp_all <;> omega
  | softDropBonus cells => exact h
  | hardDropBonus cells => exact h
  | comboReset => exact h

/-- Helper for C8: no session mutator ever lowers the level. -/
theorem applyScoreOp_level_mono (s : ScoreState) (op : ScoreOp) :
    s.level ≤ (applyScoreOp s op).level := by
  cases op with
  | lineClear linesCleared tspinType =>
      unfold applyScoreOp ScoreManager.processLineClear ScoreManager.checkLevelUp LINES_PER_LEVEL
      dsimp only
      split_ifs <;> simp_all <;> omega
  | softDropBonus cells => exact le_refl _
  | hardDropBonus cells => exact le_refl _
  | comboReset => exact le_refl _

/-- Helper for C8: the level formula is invariant along any trace. -/
theorem applyScoreOps_level_formula :
    ∀ (ops : List ScoreOp) (s : ScoreState),
      s.level = s.lines / 10 + 1 →
      (applyScoreOps s ops).level =
        (applyScoreOps s ops).lines / 10 + 1 := by
  intro ops
  induction ops with
  | nil => intro s h; exact h
  | cons op rest ih =>
      intro s h
      exact ih (applyScoreOp s op) (applyScoreOp_level_formula s h op)

/-- C8: a `ScoreManager` started at level 1 satisfies
`level = floor(totalLines / 10) + 1` after every sequence of session
operations (in particular after every `processLineClear`), and extending
any trace by one more operation never decreases the level. -/
theorem scoreManager_level_invariant (ops : List ScoreOp) :
    ((applyScoreOps ScoreManager.new ops).level =
      (applyScoreOps ScoreManager.new ops).lines / 10 + 1) ∧
    ∀ op : ScoreOp,
      (applyScoreOps ScoreManager.new ops).level ≤
        (applyScoreOps ScoreManager.new (ops ++ [op])).level := by
  constructor
  · exact applyScoreOps_level_formula ops ScoreManager.new rfl
  · intro op
    have : applyScoreOps ScoreManager.new (ops ++ [op]) =
        applyScoreOp (applyScoreOps ScoreManager.new ops) op := by
      unfold applyScoreOps
      rw [List.foldl_append]
      rfl
    rw [this]
    exact applyScoreOp_level_mono _ op

/-- C9: `updatePlayback` is a strict no-op — empty action list, every state
field unchanged — whenever the playback state is paused, already finished,
or the delta time is negative. -/
theorem updatePlayback_noop (state : ReplayPlaybackState) (deltaTime : ℚ)
    (h : state.paused = true ∨ state.finished = true ∨ deltaTime < 0) :
    ReplaySystem.updatePlayback state deltaTime = (state, []) := by
  unfold ReplaySystem.updatePlayback
  rcases h with h | h | h <;> simp [h]

/-- Witness for C9: a paused state with a pending event is untouched. -/
theorem updatePlayback_noop_witness :
    ReplaySystem.updatePlayback
      ⟨⟨"r1", 42, [⟨100, .hardDrop⟩], 0, 0, 0, "", 1000⟩, 5, 0, true, 1, false⟩ 16 =
      (⟨⟨"r1", 42, [⟨100, .hardDrop⟩], 0, 0, 0, "", 1000⟩, 5, 0, true, 1, false⟩, []) :=
  updatePlayback_noop _ 16 (Or.inl rfl)

/-- Helper for C4: if every remaining trial offset fails `canPlaceTetromino`,
the kick loop reports failure and returns the piece untouched. -/
theorem tryKicks_all_fail (t : Tetromino) (b : Board) (toState : RotationState) :
    ∀ (offsets : List Position) (i : Nat),
      (∀ off ∈ offsets,
        b.canPlaceTetromino
          ((t.clone.setRotation toState).setPosition
            ⟨t.position.x + off.x, t.position.y + off.y⟩) = false) →
      tryKicks t b toState offsets i =
        ({ success := false, kickOffset := Option.none, kickIndex := -1 }, t) := by
  intro offsets
  induction offsets with
  | nil => intro i _; rfl
  | cons off rest ih =>
      intro i h
      unfold tryKicks
      dsimp only
      rw [h off (List.mem_cons_self off rest)]
      exact ih (i + 1) fun o ho => h o (List.mem_cons_of_mem off ho)

/-- C4: when all 5 kick-offset trials of `tryRotation` fail the grid's
`canPlaceTetromino` check (only non-O pieces run trials; the O piece
short-circuits before any), the result is `success = false`,
`kickIndex = -1`, and the piece's position and rotation are exactly what
they were before the call. -/
theorem tryRotation_all_fail (t : Tetromino) (b : Board) (direction : RotationDirection)
    (hO : t.type ≠ .O)
    (hfail : ∀ off ∈
        (getWallKickTable t.type t.rotation
          (getTargetRotation t.rotation direction)).getD [],
      b.canPlaceTetromino
        ((t.clone.setRotation (getTargetRotation t.rotation direction)).setPosition
          ⟨t.position.x + off.x, t.position.y + off.y⟩) = false) :
    tryRotation t b direction =
      ({ success := false, kickOffset := Option.none, kickIndex := -1 }, t) := by
  unfold tryRotation
  dsimp only
  rw [if_neg hO]
  cases htab : getWallKickTable t.type t.rotation
      (getTargetRotation t.rotation direction) with
  | none => rfl
  | some offsets =>
      rw [htab] at hfail
      exact tryKicks_all_fail t b _ offsets 0 hfail

/-- Witness for C4: a T piece on a completely filled 4×4 board; every
clockwise trial collides, and the piece is returned unchanged. -/
theorem tryRotation_all_fail_witness :
    tryRotation ⟨.T, 0, ⟨1, 1⟩⟩
      ⟨⟨4, 4, 0⟩, List.replicate 4 (List.replicate 4 ⟨true, Option.none⟩)⟩
      .clockwise =
      ({ success := false, kickOffset := Option.none, kickIndex := -1 },
        ⟨.T, 0, ⟨1, 1⟩⟩) :=
  tryRotation_all_fail ⟨.T, 0, ⟨1, 1⟩⟩
    ⟨⟨4, 4, 0⟩, List.replicate 4 (List.replicate 4 ⟨true, Option.none⟩)⟩
    .clockwise (by decide) (by decide)

/-- The swap index computed by `shuffleAux` in `Nat` division equals
`Math.floor(random() * (i + 1))` over the exact rational value of
`random()` (here with `i + 1` written `i + 2` as in the recursion). -/
theorem shuffleAux_index_eq_floor (s i : Nat) :
    s * (i + 2) / 4294967295 = (⌊lcgValue s * ((i : ℚ) + 2)⌋).toNat := by
  unfold lcgValue
  have hcast : (s : ℚ) / 4294967295 * ((i : ℚ) + 2) =
      ((s * (i + 2) : ℕ) : ℚ) / ((4294967295 : ℕ) : ℚ) := by
    push_cast
    ring
  rw [hcast, Rat.floor_natCast_div_natCast, ← Int.natCast_div, Int.toNat_natCast]

/-- Helper for C6/C10: integers below `2^53` are exactly representable. -/
theorem roundB64_of_lt (n : Nat) (h : n < 2 ^ 53) : roundB64 n = n := by
  unfold roundB64
  rw [if_pos h]

/-- Helper for C6/C10: above `2^53` the rounded value is a multiple of the
(even) unit in the last place, hence even. -/
theorem roundB64_even (n : Nat) (h : 2 ^ 53 ≤ n) : 2 ∣ roundB64 n := by
  unfold roundB64
  rw [if_neg (not_lt.mpr h)]
  have hn0 : n ≠ 0 := by positivity
  have hlog : 53 ≤ n.log2 := (Nat.le_log2 hn0).mpr h
  have hu : 2 ∣ 2 ^ (n.log2 - 52) := dvd_pow_self 2 (by omega)
  dsimp only
  split_ifs <;> exact Dvd.dvd.mul_left hu _

/-- Helper for C6/C10: rounding never drops a value from above `2^53` to
below it. -/
theorem roundB64_ge (n : Nat) (h : 2 ^ 53 ≤ n) : 2 ^ 53 ≤ roundB64 n := by
  unfold roundB64
  rw [if_neg (not_lt.mpr h)]
  have hn0 : n ≠ 0 := by positivity
  have hlog : 53 ≤ n.log2 := (Nat.le_log2 hn0).mpr h
  have hself : 2 ^ n.log2 ≤ n := Nat.log2_self_le hn0
  have hq : 2 ^ 52 ≤ n / 2 ^ (n.log2 - 52) := by
    have h1 : 2 ^ n.log2 / 2 ^ (n.log2 - 52) ≤ n / 2 ^ (n.log2 - 52) :=
      Nat.div_le_div_right hself
    rw [Nat.pow_div (by omega) (by norm_num)] at h1
    have h2 : n.log2 - (n.log2 - 52) = 52 := by omega
    rwa [h2] at h1
  have hbase : 2 ^ 53 ≤ n / 2 ^ (n.log2 - 52) * 2 ^ (n.log2 - 52) := by
    calc 2 ^ 53 ≤ 2 ^ 52 * 2 ^ (n.log2 - 52) := by
          rw [← pow_add]
          exact Nat.pow_le_pow_right (by norm_num) (by omega)
      _ ≤ n / 2 ^ (n.log2 - 52) * 2 ^ (n.log2 - 52) :=
          Nat.mul_le_mul_right _ hq
  dsimp only
  split_ifs <;>
    first
      | exact hbase
      | exact le_trans hbase (Nat.mul_le_mul_right _ (Nat.le_succ _))

/-- Helper for C6/C10: the rounded LCG step never produces the state
`0xffffffff`.  An odd result forces the whole computation into the exact
region below `2^53`, where the unique 32-bit preimage of `0xffffffff`
(namely `230538014`, via the inverse `4005161829` of `1103515245` mod
`2^32`) has a product far above `2^53` — a contradiction. -/
theorem lcgNext_ne_max (s : Nat) : lcgNext s ≠ 4294967295 := by
  intro h
  unfold lcgNext at h
  generalize hpdef : roundB64 (s * 1103515245) = p at h
  generalize hqdef : roundB64 (p + 12345) = q at h
  have hqodd : q % 2 = 1 := by omega
  have hlt2 : p + 12345 < 2 ^ 53 := by
    by_contra hge
    push_neg at hge
    have h2 := roundB64_even _ hge
    rw [hqdef] at h2
    omega
  have hqe : q = p + 12345 := by rw [← hqdef, roundB64_of_lt _ hlt2]
  have hlt1 : s * 1103515245 < 2 ^ 53 := by
    by_contra hge
    push_neg at hge
    have h3 := roundB64_ge _ hge
    rw [hpdef] at h3
    omega
  have hpe : p = s * 1103515245 := by rw [← hpdef, roundB64_of_lt _ hlt1]
  have hfull : (s * 1103515245 + 12345) % 4294967296 = 4294967295 := by
    rw [hqe, hpe] at h
    exact h
  have hiso : (s * 1103515245 % 4294967296 + 12345) % 4294967296 = 4294967295 := by
    calc (s * 1103515245 % 4294967296 + 12345) % 4294967296
        = (s * 1103515245 % 4294967296 + 12345 % 4294967296) % 4294967296 := by
          norm_num
      _ = (s * 1103515245 + 12345) % 4294967296 := (Nat.add_mod _ _ _).symm
      _ = 4294967295 := hfull
  have hylt : s * 1103515245 % 4294967296 < 4294967296 := Nat.mod_lt _ (by norm_num)
  have hsa : s * 1103515245 % 4294967296 = 4294954950 := by
    clear h hqodd hlt2 hqe hlt1 hpe hfull hpdef hqdef
    generalize s * 1103515245 % 4294967296 = y at hiso hylt ⊢
    omega
  have h1 : s * (1103515245 * 4005161829) % 4294967296 =
      4294954950 * 4005161829 % 4294967296 := by
    rw [← Nat.mul_assoc, Nat.mul_mod, hsa]
  have h2 : s * (1103515245 * 4005161829) % 4294967296 = s % 4294967296 := by
    rw [Nat.mul_mod, (by norm_num : 1103515245 * 4005161829 % 4294967296 = 1),
      Nat.mul_one, Nat.mod_mod_of_dvd s dvd_rfl]
  have h3 : 4294954950 * 4005161829 % 4294967296 = 230538014 := by norm_num
  have hs230 : s % 4294967296 = 230538014 := by rw [← h2, h1, h3]
  have hge : 230538014 ≤ s := by
    have hle := Nat.mod_le s 4294967296
    rw [hs230] at hle
    exact hle
  have hbig : 2 ^ 53 ≤ s * 1103515245 :=
    le_trans (by norm_num) (Nat.mul_le_mul_right _ hge)
  exact absurd hbig (not_le.mpr hlt1)

/-- Helper for C6/C10: the LCG state stays a 32-bit value strictly below
`0xffffffff`. -/
theorem lcgNext_le (s : Nat) : lcgNext s ≤ 4294967294 := by
  have h1 : lcgNext s < 4294967296 := Nat.mod_lt _ (by norm_num)
  have h2 := lcgNext_ne_max s
  omega

/-- Helper for C6/C10: an in-range JS array read is a list lookup. -/
theorem jsRead_lt (arr : List (Option TetrominoType)) (i : Nat)
    (h : i < arr.length) : jsRead arr i = arr.get ⟨i, h⟩ := by
  unfold jsRead
  rw [List.get?_eq_get h]
  rfl

/-- Helper for C6/C10: an in-range JS array write is a list `set`. -/
theorem jsWrite_lt (arr : List (Option TetrominoType)) (i : Nat)
    (v : Option TetrominoType) (h : i < arr.length) :
    jsWrite arr i v = arr.set i v := by
  unfold jsWrite
  rw [if_pos h]

/-- Helper for C6/C10: the two-write Fisher–Yates swap of the entries at two
in-range positions preserves every value's multiplicity. -/
theorem count_swap (l : List (Option TetrominoType)) (m n : Nat)
    (hm : m < l.length) (hn : n < l.length) (x : Option TetrominoType) :
    ((l.set m (jsRead l n)).set n (jsRead l m)).count x = l.count x := by
  rw [jsRead_lt l n hn, jsRead_lt l m hm]
  have hn2 : n < (l.set m (l.get ⟨n, hn⟩)).length := by simpa using hn
  rw [List.count_set _ _ _ _ hn2, List.count_set _ _ _ _ hm]
  have e1 : (l.set m (l.get ⟨n, hn⟩))[n] = l[n] := by
    by_cases hmn : m = n
    · subst hmn
      simp
    · rw [List.getElem_set_of_ne hmn]
  have e2 : l.get ⟨n, hn⟩ = l[n] := by simp [List.get_eq_getElem]
  have e3 : l.get ⟨m, hm⟩ = l[m] := by simp [List.get_eq_getElem]
  rw [e1, e2, e3]
  have hcm : (if (l[m] == x) = true then 1 else 0) ≤ l.count x := by
    split_ifs with h
    · have hx : x ∈ l := by
        rw [← eq_of_beq h]
        exact List.getElem_mem hm
      exact List.count_pos_iff.mpr hx
    · exact Nat.zero_le _
  have hcn : (if (l[n] == x) = true then 1 else 0) ≤ l.count x := by
    split_ifs with h
    · have hx : x ∈ l := by
        rw [← eq_of_beq h]
        exact List.getElem_mem hn
      exact List.count_pos_iff.mpr hx
    · exact Nat.zero_le _
  split_ifs at * <;> omega

/-- Helper for C6/C10: the Fisher–Yates loop preserves length and every
value's multiplicity — every swap index is in range because the LCG state
never reaches `0xffffffff`. -/
theorem shuffleAux_count (x : Option TetrominoType) :
    ∀ (i : Nat) (arr : List (Option TetrominoType)) (seed : Nat),
      i < arr.length →
      (shuffleAux i arr seed).1.count x = arr.count x ∧
      (shuffleAux i arr seed).1.length = arr.length := by
  intro i
  induction i with
  | zero => intro arr seed _; exact ⟨rfl, rfl⟩
  | succ i ih =>
      intro arr seed hlen
      have hjle : lcgNext seed * (i + 2) / 4294967295 ≤ i + 1 := by
        have hse := lcgNext_le seed
        have hlt : lcgNext seed * (i + 2) < (i + 2) * 4294967295 := by
          rw [Nat.mul_comm (i + 2) 4294967295]
          exact mul_lt_mul_of_pos_right (by omega) (by omega)
        have := (Nat.div_lt_iff_lt_mul (by norm_num :
          0 < 4294967295)).mpr hlt
        omega
      have hjlt : lcgNext seed * (i + 2) / 4294967295 < arr.length := by omega
      have hi1 : i + 1 < arr.length := hlen
      unfold shuffleAux
      dsimp only
      rw [jsWrite_lt _ _ _ hi1]
      rw [jsWrite_lt _ _ _ (by simpa using hjlt)]
      have hswap := count_swap arr (i + 1)
        (lcgNext seed * (i + 2) / 4294967295) hi1 hjlt x
      have hlen2 : i < ((arr.set (i + 1)
          (jsRead arr (lcgNext seed * (i + 2) / 4294967295))).set
          (lcgNext seed * (i + 2) / 4294967295) (jsRead arr (i + 1))).length := by
        simpa using (by omega : i < arr.length)
      obtain ⟨hc, hl⟩ := ih _ (lcgNext seed) hlen2
      refine ⟨?_, ?_⟩
      · rw [hc, hswap]
      · rw [hl]
        simp

/-- Helper for C6/C10: every bag built by `fillBag`/`fillPreviewBag` — the
shuffle of a fresh 7-kind bag from any LCG state — has 7 slots and carries
each kind exactly once, with no `undefined` slot. -/
theorem shuffle_freshBag_good (s : Nat) :
    (shuffle Randomizer.freshBag s).1.length = 7 ∧
    (∀ kind : TetrominoType,
      (shuffle Randomizer.freshBag s).1.count (some kind) = 1) ∧
    (shuffle Randomizer.freshBag s).1.count Option.none = 0 := by
  refine ⟨?_, fun kind => ?_, ?_⟩
  · rw [show shuffle Randomizer.freshBag s =
        shuffleAux 6 Randomizer.freshBag s from rfl,
      (shuffleAux_count Option.none 6 Randomizer.freshBag s (by decide)).2]
    decide
  · rw [show shuffle Randomizer.freshBag s =
        shuffleAux 6 Randomizer.freshBag s from rfl,
      (shuffleAux_count (some kind) 6 Randomizer.freshBag s (by decide)).1]
    cases kind <;> decide
  · rw [show shuffle Randomizer.freshBag s =
        shuffleAux 6 Randomizer.freshBag s from rfl,
      (shuffleAux_count Option.none 6 Randomizer.freshBag s (by decide)).1]
    decide

/-- C10: for every 32-bit internal seed state, `SeededRandom.next()`
returns a value `r` with `0 ≤ r < 1` (the rounded LCG step never reaches
the state `0xffffffff`, the only one whose quotient by `0xffffffff` is 1),
the shuffle swap index `Math.floor(r * (i + 1))` is within `0..i` for every
`i` (stated in the `Nat`-division form used by `shuffleAux`, which
`shuffleAux_index_eq_floor` equates with the floor), and every bag produced
by `fillBag` has exactly 7 defined entries. -/
theorem seededRandom_next_range (s : Nat) (hs : s < 4294967296) :
    0 ≤ lcgValue (lcgNext s) ∧
    lcgValue (lcgNext s) < 1 ∧
    (∀ i : Nat, lcgNext s * (i + 1) / 4294967295 ≤ i) ∧
    (shuffle Randomizer.freshBag s).1.length = 7 ∧
    ∀ slot ∈ (shuffle Randomizer.freshBag s).1, slot.isSome := by
  have hle := lcgNext_le s
  refine ⟨?_, ?_, fun i => ?_, (shuffle_freshBag_good s).1, fun slot hmem => ?_⟩
  · unfold lcgValue
    exact div_nonneg (Nat.cast_nonneg _) (by norm_num)
  · unfold lcgValue
    rw [div_lt_one (by norm_num)]
    exact_mod_cast lt_of_le_of_lt hle (by norm_num)
  · have hlt : lcgNext s * (i + 1) < (i + 1) * 4294967295 := by
      rw [Nat.mul_comm (i + 1) 4294967295]
      exact mul_lt_mul_of_pos_right (by omega) (by omega)
    have := (Nat.div_lt_iff_lt_mul (by norm_num : 0 < 4294967295)).mpr hlt
    omega
  · have hz := (shuffle_freshBag_good s).2.2
    cases hsl : slot with
    | some kind => rfl
    | none =>
        rw [hsl] at hmem
        exact absurd (List.count_eq_zero.mp hz) (fun hnot => hnot hmem)

/-- Witness for C10 at the seed state 0. -/
theorem seededRandom_next_range_witness :
    0 ≤ lcgValue (lcgNext 0) ∧
    lcgValue (lcgNext 0) < 1 ∧
    (∀ i : Nat, lcgNext 0 * (i + 1) / 4294967295 ≤ i) ∧
    (shuffle Randomizer.freshBag 0).1.length = 7 ∧
    ∀ slot ∈ (shuffle Randomizer.freshBag 0).1, slot.isSome :=
  seededRandom_next_range 0 (by norm_num)

/-- Helper for C5: a freshly inserted empty row of positive width is not
full. -/
theorem rowFull_replicate_empty (w : Nat) (hw : 0 < w) :
    rowFull (List.replicate w emptyCell) = false := by
  cases w with
  | zero => omega
  | succ n => simp [rowFull, emptyCell]

/-- Helper for C5: reading the row at index `u'.length` of
`(u' ++ [r]) ++ rest`. -/
theorem get?_append_concat (u' : List (List Cell)) (r : List Cell)
    (rest : List (List Cell)) :
    ((u' ++ [r]) ++ rest).get? u'.length = some r := by
  induction u' with
  | nil => rfl
  | cons a u ih => exact ih

/-- Helper for C5: `splice(y, 1)` at index `u'.length` of
`(u' ++ [r]) ++ rest` removes exactly `r`. -/
theorem eraseIdx_append_concat (u' : List (List Cell)) (r : List Cell)
    (rest : List (List Cell)) :
    ((u' ++ [r]) ++ rest).eraseIdx u'.length = u' ++ rest := by
  induction u' with
  | nil => rfl
  | cons a u ih => exact congrArg (List.cons a) ih

/-- Helper for C5: `isRowFilled` at the scan index reads the last row of
the unscanned region. -/
theorem isRowFilled_concat (cfg : BoardConfig) (u' r rest)
    (hlt : u'.length < cfg.height + cfg.bufferHeight) :
    Board.isRowFilled ⟨cfg, (u' ++ [r]) ++ rest⟩ (u'.length : Int) = rowFull r := by
  unfold Board.isRowFilled Board.totalHeight rowFull
  have hcond : ¬(((u'.length : Int) < 0 ||
      ((cfg.height + cfg.bufferHeight : Nat) : Int) ≤ (u'.length : Int)) = true) := by
    simp only [Bool.or_eq_true, decide_eq_true_eq]
    omega
  rw [if_neg hcond]
  simp only [Int.toNat_natCast, get?_append_concat]

/-- Helper for C5: `clearRow` at the scan index removes the last row of the
unscanned region and pushes a fresh empty row on top. -/
theorem clearRow_concat (cfg : BoardConfig) (u' r rest)
    (hlt : u'.length < cfg.height + cfg.bufferHeight) :
    Board.clearRow ⟨cfg, (u' ++ [r]) ++ rest⟩ (u'.length : Int) =
      ⟨cfg, List.replicate cfg.width emptyCell :: (u' ++ rest)⟩ := by
  unfold Board.clearRow Board.totalHeight
  have hcond : ¬(((u'.length : Int) < 0 ||
      ((cfg.height + cfg.bufferHeight : Nat) : Int) ≤ (u'.length : Int)) = true) := by
    simp only [Bool.or_eq_true, decide_eq_true_eq]
    omega
  rw [if_neg hcond]
  simp only [Int.toNat_natCast, eraseIdx_append_concat]

/-- Helper for C5: the net effect of the bottom-to-top scan.  Scanning the
region `u` (the grid above and including the current index) with `rest`
already scanned below leaves every non-full row of `u` in order, prepends
one fresh empty row per full row, and adds the number of full rows of `u`
to the running count. -/
theorem clearLoop_spec (cfg : BoardConfig) (hw : 0 < cfg.width) :
    ∀ (fuel : Nat) (u rest : List (List Cell)) (c : Nat),
      u.length + rest.length = cfg.height + cfg.bufferHeight →
      u.length + (u.filter rowFull).length ≤ fuel →
      Board.clearLoop fuel ⟨cfg, u ++ rest⟩ u.length c =
        (⟨cfg, List.replicate (u.filter rowFull).length
              (List.replicate cfg.width emptyCell) ++
            u.filter (fun r => !rowFull r) ++ rest⟩,
          c + (u.filter rowFull).length) := by
  intro fuel
  induction fuel with
  | zero =>
      intro u rest c hlen hfuel
      have hu : u = [] := List.eq_nil_of_length_eq_zero (by omega)
      subst hu
      simp [Board.clearLoop]
  | succ fuel ih =>
      intro u rest c hlen hfuel
      rcases List.eq_nil_or_concat u with hu | ⟨u', r, hu⟩
      · subst hu
        simp [Board.clearLoop]
      · rw [List.concat_eq_append] at hu
        subst hu
        have hlt : u'.length < cfg.height + cfg.bufferHeight := by
          simp only [List.length_append, List.length_cons, List.length_nil] at hlen
          omega
        have hulen : (u' ++ [r]).length = u'.length + 1 := by
          simp
        rw [hulen]
        show (if Board.isRowFilled ⟨cfg, (u' ++ [r]) ++ rest⟩ (u'.length : Int) then
            Board.clearLoop fuel
              (Board.clearRow ⟨cfg, (u' ++ [r]) ++ rest⟩ (u'.length : Int))
              (u'.length + 1) (c + 1)
          else
            Board.clearLoop fuel ⟨cfg, (u' ++ [r]) ++ rest⟩ u'.length c) = _
        rw [isRowFilled_concat cfg u' r rest hlt]
        have hlen' : u'.length + 1 + rest.length = cfg.height + cfg.bufferHeight := by
          simp only [List.length_append, List.length_cons, List.length_nil] at hlen
          omega
        by_cases hr : rowFull r = true
        · have hfu : ((u' ++ [r]).filter rowFull).length =
              (u'.filter rowFull).length + 1 := by
            simp [List.filter_append, hr]
          have hfnu : (u' ++ [r]).filter (fun row => !rowFull row) =
              u'.filter (fun row => !rowFull row) := by
            simp [List.filter_append, hr]
          have hfc : (List.replicate cfg.width emptyCell :: u').filter rowFull =
              u'.filter rowFull := by
            simp [List.filter_cons, rowFull_replicate_empty cfg.width hw]
          have hfnc : (List.replicate cfg.width emptyCell :: u').filter
              (fun row => !rowFull row) =
              List.replicate cfg.width emptyCell ::
                u'.filter (fun row => !rowFull row) := by
            simp [List.filter_cons, rowFull_replicate_empty cfg.width hw]
          rw [hulen, hfu] at hfuel
          rw [hr, if_pos rfl, clearRow_concat cfg u' r rest hlt]
          have hgrid : List.replicate cfg.width emptyCell :: (u' ++ rest) =
              (List.replicate cfg.width emptyCell :: u') ++ rest := by
            simp
          have hlen1 : u'.length + 1 =
              (List.replicate cfg.width emptyCell :: u').length := by
            simp
          rw [hgrid, hlen1,
            ih (List.replicate cfg.width emptyCell :: u') rest (c + 1)
              (by simp only [List.length_cons]; omega)
              (by simp only [List.length_cons, hfc]; omega)]
          rw [hfu, hfnu, hfc, hfnc]
          have hnum : c + 1 + (u'.filter rowFull).length =
              c + ((u'.filter rowFull).length + 1) := by omega
          rw [hnum, List.replicate_succ']
          congr 2
          simp
        · have hfu : (u' ++ [r]).filter rowFull = u'.filter rowFull := by
            simp [List.filter_append, hr]
          have hfnu : (u' ++ [r]).filter (fun row => !rowFull row) =
              u'.filter (fun row => !rowFull row) ++ [r] := by
            simp [List.filter_append, hr]
          rw [hulen, hfu] at hfuel
          rw [if_neg hr]
          have hgrid : (u' ++ [r]) ++ rest = u' ++ (r :: rest) := by
            simp
          rw [hgrid,
            ih u' (r :: rest) c
              (by simp only [List.length_cons]; omega)
              (by omega)]
          rw [hfu, hfnu]
          congr 2
          simp

/-- C5 counterexample: on a grid with 5 simultaneously full rows (buildable
through `setCell`), `clearFilledRows` returns 5, not a value in 0..4. -/
theorem clearFilledRows_returns_five :
    (Board.clearFilledRows ⟨BOARD_CONFIG,
      List.replicate 19 (List.replicate 10 emptyCell) ++
        List.replicate 5 (List.replicate 10 ⟨true, Option.none⟩)⟩).2 = 5 := by
  decide

/-- C5 (amended): for every grid of positive width with the class's
row-count invariant, the bottom-to-top scan of `clearFilledRows` (which
re-examines the same index after each clear) removes exactly the completely
filled rows, inserts one empty row at the top per cleared row, and returns
the exact number of rows cleared — the number of full rows, which is at
most 4 whenever at most 4 rows are full (as in play), but not in general. -/
theorem clearFilledRows_spec (b : Board) (hw : 0 < b.config.width)
    (hlen : b.grid.length = b.totalHeight) :
    (b.clearFilledRows).2 = (b.grid.filter rowFull).length ∧
    (b.clearFilledRows).1.grid =
      List.replicate (b.grid.filter rowFull).length
          (List.replicate b.config.width emptyCell) ++
        b.grid.filter (fun r => !rowFull r) ∧
    ((b.grid.filter rowFull).length ≤ 4 → (b.clearFilledRows).2 ≤ 4) := by
  obtain ⟨cfg, g⟩ := b
  unfold Board.totalHeight at hlen
  unfold Board.clearFilledRows Board.totalHeight
  dsimp only at hlen hw ⊢
  have h := clearLoop_spec cfg hw (cfg.height + cfg.bufferHeight + g.length + 1)
    g [] 0 (by simpa using hlen)
    (by
      have := List.length_filter_le rowFull g
      omega)
  rw [List.append_nil] at h
  rw [← hlen] at h ⊢
  rw [h]
  exact ⟨by simp, by simp, fun h4 => by simpa using h4⟩

/-- Witness for C5 (amended) on the default empty board: no row is full,
nothing is cleared. -/
theorem clearFilledRows_spec_witness :
    ((Board.new).clearFilledRows).2 = ((Board.new).grid.filter rowFull).length ∧
    ((Board.new).clearFilledRows).1.grid =
      List.replicate ((Board.new).grid.filter rowFull).length
          (List.replicate (Board.new).config.width emptyCell) ++
        (Board.new).grid.filter (fun r => !rowFull r) ∧
    (((Board.new).grid.filter rowFull).length ≤ 4 →
      ((Board.new).clearFilledRows).2 ≤ 4) :=
  clearFilledRows_spec Board.new (by decide) (by decide)

/-- C1: the session controller is deterministic.  Two runs of the embedded
play-state machine from the same sequencer seed, fed the identical per-tick
action batches at identical per-tick delta times, reach bit-identical score
state (score, level, lines, combo, back-to-back) and identical grid cell
contents.  The embedded semantics is a pure function of seed and log, so
equal inputs force equal runs; the content of the claim is that the
embedding covers all state feeding score and grid. -/
theorem runSession_deterministic (seed₁ seed₂ : Nat)
    (ticks₁ ticks₂ : List (List InputAction × Int))
    (hseed : seed₁ = seed₂) (hticks : ticks₁ = ticks₂) :
    (GameManager.runSession seed₁ ticks₁).scoreManager =
      (GameManager.runSession seed₂ ticks₂).scoreManager ∧
    (GameManager.runSession seed₁ ticks₁).board.grid =
      (GameManager.runSession seed₂ ticks₂).board.grid := by
  subst hseed
  subst hticks
  exact ⟨rfl, rfl⟩

/-- Witness for C1 at a concrete seed and two-tick log. -/
theorem runSession_deterministic_witness :
    (GameManager.runSession 12345 [([InputAction.hardDrop], 16), ([], 500)]).scoreManager =
      (GameManager.runSession 12345 [([InputAction.hardDrop], 16), ([], 500)]).scoreManager ∧
    (GameManager.runSession 12345 [([InputAction.hardDrop], 16), ([], 500)]).board.grid =
      (GameManager.runSession 12345 [([InputAction.hardDrop], 16), ([], 500)]).board.grid :=
  runSession_deterministic 12345 12345 _ _ rfl rfl

end MyTetris
